import Mathlib

/-!
Shallow embedding of `vite-plugin-tailwind-purgecss` (`src/index.ts`) and
verification of its specification claims.

The plugin's external collaborators are modelled as parameters:
* the CSS selector grammar check `parse` from `css-what` and the JavaScript
  `new RegExp` compilation are modelled as abstract success predicates
  `parseOk regexOk : String → Bool` (in the source both are fallible calls
  whose only observable effect here is success or thrown exception);
* the token extractor is an abstract function `ext : String → List String`;
* the purge engine `new PurgeCSS().purge` is an abstract function from the
  invocation options to the list of results (`purgeCSSResult` in the source);
* the host bundler's module registry (`this.getModuleInfo`) is a function
  `getInfo : String → Option ModuleInfo` and its AST parse primitive
  (`this.parse`) a function `parseAst : String → ESNode`.

JavaScript `Set<string>` values (`selectors`, `moduleIds`) are modelled as
insertion-ordered duplicate-free lists built with `insertUnique`; the mutable
`standard` array is modelled by explicit list-passing; the `bundle` object is
an association list keyed by file name.
-/

set_option autoImplicit false

namespace PurgeCssPlugin

/-- An entry of a purgecss `StringRegExpArray`: a plain string or a regular
expression (identified by its source pattern). Mirrors the element type of
the `standard` array in `src/index.ts`. -/
inductive SRE where
  | str (s : String)
  | regex (source : String)
  deriving DecidableEq, Repr

/-- `EXT_CSS = /\.(css)$/` from `src/index.ts` line 16; `EXT_CSS.test(name)`
holds exactly when the name ends in `.css`. -/
def extCssTest (name : String) : Bool :=
  name.endsWith ".css"

/-- The fixed baseline entries of the `standard` safelist array, from
`src/index.ts` lines 21–29: the strings `'*'`, `'html'`, `'body'` and the
regexes with sources `aria-current`, `svelte-` and `^\:[-a-z]+$`. -/
def baselineStandard : List SRE :=
  [SRE.str "*", SRE.str "html", SRE.str "body",
   SRE.regex "aria-current", SRE.regex "svelte-",
   SRE.regex "^\\:[-a-z]+$"]

/-- The `ComplexSafelist` shape from purgecss as used by the plugin: every
partition is optional (`purgeOptions?.safelist?.standard` etc.). `deep` and
`greedy` are arrays of regexes in purgecss; we keep them as `SRE` lists. -/
structure ComplexSafelist where
  standard : Option (List SRE)
  deep : Option (List SRE)
  greedy : Option (List SRE)
  keyframes : Option Bool
  variablesFlag : Option Bool
  deriving DecidableEq, Repr

/-- The user-supplied plugin options (`purgeOptions : PurgeOptions`), the
data-carrying fields relevant to `generateBundle`: the safelist, extra
content globs, and purge-engine-native options that the source spreads
verbatim into the engine invocation (`rejected`, `rejectedCss` — both
overridden — and representative passthrough fields `fontFace`, `keyframes`
and `variables`, the last spelled `variablesFlag` because `variables` is a
reserved word in Lean). The `defaultExtractor` override is modelled
separately as the abstract extractor parameter. -/
structure UserOptions where
  safelist : Option ComplexSafelist
  content : Option (List String)
  rejected : Option Bool
  rejectedCss : Option Bool
  fontFace : Option Bool
  keyframes : Option Bool
  variablesFlag : Option Bool
  deriving DecidableEq, Repr

/-- `purgeOptions?.safelist?.standard ?? []`. -/
def userStandard (opts : Option UserOptions) : List SRE :=
  ((opts.bind (·.safelist)).bind (·.standard)).getD []

/-- `purgeOptions?.safelist?.greedy ?? []`. -/
def userGreedy (opts : Option UserOptions) : List SRE :=
  ((opts.bind (·.safelist)).bind (·.greedy)).getD []

/-- `purgeOptions?.content ?? []`. -/
def userContent (opts : Option UserOptions) : List String :=
  (opts.bind (·.content)).getD []

/-- The `standard` array as initialised at plugin construction
(`src/index.ts` lines 21–31): the six baseline entries followed by the
user-supplied standard safelist entries, verbatim. -/
def initialStandard (opts : Option UserOptions) : List SRE :=
  baselineStandard ++ userStandard opts

/-- Insertion into a JavaScript `Set` modelled on an insertion-ordered
duplicate-free list: adding an element already present is a no-op. -/
def insertUnique (l : List String) (s : String) : List String :=
  if s ∈ l then l else l ++ [s]

/-- `tokens.forEach((selector) => selectors.add(selector))`. -/
def addAll (l : List String) (tokens : List String) : List String :=
  tokens.foldl insertUnique l

/-- The `load` hook (`src/index.ts` lines 40–43): CSS modules are not
tracked; every other module id is added to the `moduleIds` set. -/
def loadHook (moduleIds : List String) (id : String) : List String :=
  if extCssTest id then moduleIds else insertUnique moduleIds id

/-- The literal value carried by an ESTree `Literal` node: the source only
extracts from it when `typeof node.value === 'string'`. -/
inductive LitValue where
  | str (s : String)
  | nonStr
  deriving DecidableEq, Repr

/-- An ESTree syntax-tree node, restricted to the shape the walk in
`generateBundle` observes: `Literal`, `Identifier` and `TemplateElement`
nodes (the three extraction categories) and all other node kinds collapsed
into `other`; each node carries its child nodes. A `TemplateElement` has
`value.cooked` (possibly absent) and `value.raw`. -/
inductive ESNode where
  | literal (value : LitValue) (kids : List ESNode)
  | ident (name : String) (kids : List ESNode)
  | templateElement (cooked : Option String) (raw : String) (kids : List ESNode)
  | other (kids : List ESNode)

/-- The child nodes of a node. -/
def ESNode.kids : ESNode → List ESNode
  | .literal _ k => k
  | .ident _ k => k
  | .templateElement _ _ k => k
  | .other k => k

mutual

/-- The tree walk with its `enter(node)` visitor from `src/index.ts`
lines 61–75, flattened to the list of tokens it produces in visit order:
every node is entered; a string `Literal` contributes `ext value`, an
`Identifier` contributes `ext name`, a `TemplateElement` contributes
`ext (cooked ?? raw)`; all children are then traversed in order. -/
def walkExtract (ext : String → List String) : ESNode → List String
  | .literal (.str s) kids => ext s ++ walkExtractList ext kids
  | .literal .nonStr kids => walkExtractList ext kids
  | .ident n kids => ext n ++ walkExtractList ext kids
  | .templateElement cooked raw kids =>
      ext (cooked.getD raw) ++ walkExtractList ext kids
  | .other kids => walkExtractList ext kids

/-- Traversal of a list of sibling nodes, in order. -/
def walkExtractList (ext : String → List String) : List ESNode → List String
  | [] => []
  | n :: ns => walkExtract ext n ++ walkExtractList ext ns

end

/-- Modelled from the spec (§4.1): the candidate text a single node
contributes on its own — string-literal nodes their literal value,
identifier nodes their name, template-text segments the cooked value with
fallback to the raw text, and every other node category nothing. Used to
compare the source's walk against the spec's description of it. -/
def specNodeText : ESNode → Option String
  | .literal (.str s) _ => some s
  | .literal .nonStr _ => none
  | .ident n _ => some n
  | .templateElement cooked raw _ => some (cooked.getD raw)
  | .other _ => none

/-- The module information the plugin queries from the host
(`this.getModuleInfo(id)`): whether the module is included in the final
build and its resolved code (`null` modelled as `none`). -/
structure ModuleInfo where
  isIncluded : Option Bool
  code : Option String
  deriving DecidableEq, Repr

/-- One iteration of the module-scanning loop (`src/index.ts` lines 54–76):
`if (info?.isIncluded !== true || info.code === null) continue;` then parse
the code, walk the tree and add every extracted token to `selectors`. -/
def scanModule (getInfo : String → Option ModuleInfo)
    (parseAst : String → ESNode) (ext : String → List String)
    (selectors : List String) (id : String) : List String :=
  match getInfo id with
  | none => selectors
  | some info =>
    if info.isIncluded = some true then
      match info.code with
      | none => selectors
      | some code => addAll selectors (walkExtract ext (parseAst code))
    else selectors

/-- Whether the scanning loop actually scans module `id`: the guard
`info?.isIncluded !== true || info.code === null` must not fire, i.e. the
module info exists, `isIncluded` is exactly `true` and the code is
available. -/
def moduleScanned (getInfo : String → Option ModuleInfo) (id : String) :
    Bool :=
  match getInfo id with
  | none => false
  | some info => decide (info.isIncluded = some true) && info.code.isSome

/-- The full scanning loop over `moduleIds`. -/
def scanModules (getInfo : String → Option ModuleInfo)
    (parseAst : String → ESNode) (ext : String → List String)
    (selectors : List String) (moduleIds : List String) : List String :=
  moduleIds.foldl (scanModule getInfo parseAst ext) selectors

/-- The validation loop (`src/index.ts` lines 84–92): for each discovered
selector, `try { parse(selector); new RegExp(selector); standard.push(selector) }
catch {}` — the token is pushed onto `standard` exactly when the selector
grammar parse succeeds and then the regex compilation succeeds; any failure
is swallowed and the loop continues. -/
def buildStandard (parseOk regexOk : String → Bool)
    (standard : List SRE) (selectors : List String) : List SRE :=
  selectors.foldl
    (fun acc s => if parseOk s && regexOk s then acc ++ [SRE.str s] else acc)
    standard

/-- An emitted asset as the plugin sees it: its file name, optional
original name, and its source text. `{...asset, type: 'asset', source: x}`
keeps `fileName` and `name` and replaces `source`. -/
structure Asset where
  fileName : String
  name : Option String
  source : String
  deriving DecidableEq, Repr

/-- A bundle entry: a code chunk or an asset
(`OutputChunk | OutputAsset`). -/
inductive BundleEntry where
  | chunk (code : String)
  | asset (a : Asset)
  deriving DecidableEq, Repr

/-- The output bundle, an object keyed by file name, modelled as an
association list. -/
abbrev Bundle : Type :=
  List (String × BundleEntry)

/-- The asset-classification loop (`src/index.ts` lines 78–82): keep the
entries that are assets whose file name matches `EXT_CSS`. -/
def classifyAssets (bundle : Bundle) : List (String × Asset) :=
  bundle.filterMap (fun p =>
    match p.2 with
    | .asset a => if extCssTest p.1 then some (p.1, a) else none
    | .chunk _ => none)

/-- Whether a bundle entry keyed by `key` is a CSS asset, the condition of
`src/index.ts` line 79: an asset whose file name matches `EXT_CSS`. -/
def isCssEntry (key : String) (e : BundleEntry) : Bool :=
  match e with
  | .asset _ => extCssTest key
  | .chunk _ => false

/-- The host bundler's invariant that an asset stored under a key carries
that key as its `fileName` (in rollup, `bundle[fileName].fileName` is
`fileName`). -/
def wellKeyed (bundle : Bundle) : Bool :=
  bundle.all (fun p =>
    match p.2 with
    | .asset a => a.fileName == p.1
    | .chunk _ => true)

/-- One `{ raw, name }` entry of the purge engine's `css` option. -/
structure RawCss where
  raw : String
  name : String
  deriving DecidableEq, Repr

/-- The safelist object built at `src/index.ts` lines 105–109: the user
safelist is spread first, so `deep`, `keyframes` and `variables` pass
through verbatim, while `standard` is set to the merged standard array and
`greedy` to the `svelte-` regex followed by the user greedy entries. -/
structure MergedSafelist where
  standard : List SRE
  greedy : List SRE
  deep : Option (List SRE)
  keyframes : Option Bool
  variablesFlag : Option Bool
  deriving DecidableEq, Repr

/-- The full option object passed to `new PurgeCSS().purge` at
`src/index.ts` lines 99–110: the user options spread first, then `content`,
`css`, `rejected`, `rejectedCss` and `safelist` set explicitly (overriding
any user-supplied value for those keys). -/
structure PurgeInvocation where
  content : List String
  css : List RawCss
  rejected : Bool
  rejectedCss : Bool
  safelist : MergedSafelist
  fontFace : Option Bool
  keyframes : Option Bool
  variablesFlag : Option Bool
  deriving DecidableEq, Repr

/-- `join(viteConfig.root, '**/*.html')` from the `path` module: joins with
a single separator. -/
def joinPath (root pat : String) : String :=
  if root.endsWith "/" then root ++ pat else root ++ "/" ++ pat

/-- Builds the purge-engine invocation for one asset, the literal
translation of the object at `src/index.ts` lines 100–109. `standard` is
the merged standard array at that point of the build. -/
def mkInvocation (opts : Option UserOptions) (root : String)
    (standard : List SRE) (fileName : String) (source : String) :
    PurgeInvocation where
  content := joinPath root "**/*.html" :: userContent opts
  css := [⟨source.trim, fileName⟩]
  rejected := true
  rejectedCss := true
  safelist :=
    { standard := standard
      greedy := SRE.regex "svelte-" :: userGreedy opts
      deep := (opts.bind (·.safelist)).bind (·.deep)
      keyframes := (opts.bind (·.safelist)).bind (·.keyframes)
      variablesFlag := (opts.bind (·.safelist)).bind (·.variablesFlag) }
  fontFace := opts.bind (·.fontFace)
  keyframes := opts.bind (·.keyframes)
  variablesFlag := opts.bind (·.variablesFlag)

/-- One element of the array the purge engine returns; the plugin only
reads its `css` field. -/
structure PurgeResult where
  css : String
  deriving DecidableEq, Repr

/-- `delete bundle[key]`. -/
def eraseKey (bundle : Bundle) (key : String) : Bundle :=
  bundle.filter (fun p => p.1 ≠ key)

/-- The mutable state of the `generateBundle` hook while the purge loop
runs: the output bundle object and the assets emitted via `emitFile`. -/
structure GenState where
  bundle : Bundle
  emitted : List Asset
  deriving DecidableEq, Repr

/-- One iteration of the purge loop (`src/index.ts` lines 98–128): invoke
the engine on the asset; if `purgeCSSResult[0]` exists, delete the original
from the bundle by `asset.fileName` and emit a copy of the asset whose
`source` is the purged css; otherwise leave everything unchanged. -/
def purgeAssetStep (engine : PurgeInvocation → List PurgeResult)
    (opts : Option UserOptions) (root : String) (standard : List SRE)
    (st : GenState) (entry : String × Asset) : GenState :=
  match (engine (mkInvocation opts root standard entry.1 entry.2.source)).head? with
  | some res =>
      { bundle := eraseKey st.bundle entry.2.fileName
        emitted := st.emitted ++ [{ entry.2 with source := res.css }] }
  | none => st

/-- The purge loop over all classified CSS assets. -/
def purgePhase (engine : PurgeInvocation → List PurgeResult)
    (opts : Option UserOptions) (root : String) (standard : List SRE)
    (assets : List (String × Asset)) (st : GenState) : GenState :=
  assets.foldl (purgeAssetStep engine opts root standard) st

/-- The state the plugin closure owns across hook invocations
(`src/index.ts` lines 20–21): the `selectors` set and the `standard`
array, both created once per plugin instance. -/
structure PluginState where
  selectors : List String
  standard : List SRE
  deriving DecidableEq, Repr

/-- The closure state right after `purgeCss(purgeOptions)` returns:
`selectors` empty and `standard` holding baseline plus user entries. -/
def initialState (opts : Option UserOptions) : PluginState :=
  { selectors := [], standard := initialStandard opts }

/-- One run of the `generateBundle` hook: scan the tracked modules into the
persistent `selectors` set, classify the CSS assets, extend the persistent
`standard` array with every validated selector, then run the purge loop.
Returns the updated closure state and the final bundle-plus-emissions. -/
def runGenerateBundle (getInfo : String → Option ModuleInfo)
    (parseAst : String → ESNode) (ext : String → List String)
    (parseOk regexOk : String → Bool)
    (engine : PurgeInvocation → List PurgeResult)
    (opts : Option UserOptions) (root : String)
    (moduleIds : List String) (bundle : Bundle) (st : PluginState) :
    PluginState × GenState :=
  let selectors := scanModules getInfo parseAst ext st.selectors moduleIds
  let standard := buildStandard parseOk regexOk st.standard selectors
  let gen := purgePhase engine opts root standard (classifyAssets bundle)
    ⟨bundle, []⟩
  (⟨selectors, standard⟩, gen)

/-! ### Helper lemmas -/

/-- The validation loop appends exactly the tokens passing both checks, in
order, after the existing array. -/
theorem buildStandard_eq (p r : String → Bool) (std : List SRE)
    (sels : List String) :
    buildStandard p r std sels
      = std ++ (sels.filter (fun t => p t && r t)).map SRE.str := by
  induction sels generalizing std with
  | nil => simp [buildStandard]
  | cons s ss ih =>
    rw [show buildStandard p r std (s :: ss)
          = buildStandard p r
              (if (p s && r s) = true then std ++ [SRE.str s] else std) ss
        from rfl,
      ih, List.filter_cons]
    by_cases h : (p s && r s) = true
    · rw [if_pos h, if_pos h]
      simp
    · rw [if_neg h, if_neg h]

/-- Membership after a `Set.add`. -/
theorem mem_insertUnique (l : List String) (a s : String) :
    s ∈ insertUnique l a ↔ (s ∈ l ∨ s = a) := by
  unfold insertUnique
  by_cases h : a ∈ l
  · rw [if_pos h]
    exact ⟨Or.inl, fun h' => h'.elim id (fun e => e ▸ h)⟩
  · rw [if_neg h]
    simp

/-- Membership after adding a batch of tokens to the selectors set. -/
theorem mem_addAll (l toks : List String) (s : String) :
    s ∈ addAll l toks ↔ (s ∈ l ∨ s ∈ toks) := by
  induction toks generalizing l with
  | nil => simp [addAll]
  | cons t ts ih =>
    simp only [addAll, List.foldl_cons] at ih ⊢
    rw [ih, mem_insertUnique]
    simp [or_assoc]

/-- Scanning one more module never removes a selector from the set. -/
theorem mem_scanModule_of_mem (getInfo : String → Option ModuleInfo)
    (parseAst : String → ESNode) (ext : String → List String)
    (sel : List String) (id : String) (s : String) (h : s ∈ sel) :
    s ∈ scanModule getInfo parseAst ext sel id := by
  unfold scanModule
  split
  · exact h
  · split
    · split
      · exact h
      · exact (mem_addAll _ _ _).2 (Or.inl h)
    · exact h

/-- The scanning loop never removes a selector from the set. -/
theorem mem_scanModules_of_mem (getInfo : String → Option ModuleInfo)
    (parseAst : String → ESNode) (ext : String → List String)
    (sel : List String) (ids : List String) (s : String) (h : s ∈ sel) :
    s ∈ scanModules getInfo parseAst ext sel ids := by
  induction ids generalizing sel with
  | nil => exact h
  | cons i is ih =>
    exact ih _ (mem_scanModule_of_mem _ _ _ _ _ _ h)

/-- A module failing the inclusion guard leaves the selector set
untouched. -/
theorem scanModule_not_scanned (getInfo : String → Option ModuleInfo)
    (parseAst : String → ESNode) (ext : String → List String)
    (sel : List String) (id : String)
    (h : moduleScanned getInfo id = false) :
    scanModule getInfo parseAst ext sel id = sel := by
  cases hi : getInfo id with
  | none => simp [scanModule, hi]
  | some info =>
    simp only [moduleScanned, hi] at h
    by_cases hin : info.isIncluded = some true
    · simp only [hin] at h
      simp at h
      simp [scanModule, hi, hin, h]
    · simp [scanModule, hi, hin]

/-- Membership in the bundle after a `delete bundle[key]`. -/
theorem mem_eraseKey (bundle : Bundle) (key k : String) (e : BundleEntry) :
    (k, e) ∈ eraseKey bundle key ↔ ((k, e) ∈ bundle ∧ k ≠ key) := by
  simp [eraseKey, List.mem_filter]

/-- Characterises the classified CSS assets. -/
theorem mem_classifyAssets (bundle : Bundle) (q : String × Asset) :
    q ∈ classifyAssets bundle ↔
      ((q.1, BundleEntry.asset q.2) ∈ bundle ∧ extCssTest q.1 = true) := by
  unfold classifyAssets
  rw [List.mem_filterMap]
  constructor
  · rintro ⟨⟨k, e⟩, hmem, heq⟩
    cases e with
    | chunk c => simp at heq
    | asset a =>
      simp only at heq
      by_cases hc : extCssTest k = true
      · rw [if_pos hc] at heq
        cases heq
        exact ⟨hmem, hc⟩
      · rw [if_neg hc] at heq
        cases heq
  · rintro ⟨hmem, hc⟩
    exact ⟨(q.1, BundleEntry.asset q.2), hmem, by simp [hc]⟩

/-- With duplicate-free keys a key determines its bundle entry. -/
theorem keyed_entry_unique (bundle : Bundle)
    (hnd : (bundle.map Prod.fst).Nodup) (k : String) (e e' : BundleEntry)
    (h : (k, e) ∈ bundle) (h' : (k, e') ∈ bundle) : e = e' := by
  induction bundle with
  | nil => cases h
  | cons q qs ih =>
    rw [List.map_cons, List.nodup_cons] at hnd
    rcases List.mem_cons.1 h with h1 | h1 <;>
      rcases List.mem_cons.1 h' with h2 | h2
    · exact congrArg Prod.snd (h1.trans h2.symm)
    · subst h1
      have h3 : ∀ x : BundleEntry, ((k, e).1, x) ∉ qs := by
        simpa using hnd.1
      exact absurd h2 (h3 e')
    · subst h2
      have h3 : ∀ x : BundleEntry, ((k, e').1, x) ∉ qs := by
        simpa using hnd.1
      exact absurd h1 (h3 e)
    · exact ih hnd.2 h1 h2

/-- The purge loop does not disturb bundle entries whose key differs from
every processed asset's file name. -/
theorem purgePhase_preserves_other_keys
    (engine : PurgeInvocation → List PurgeResult)
    (opts : Option UserOptions) (root : String) (standard : List SRE)
    (assets : List (String × Asset)) (st : GenState) (k : String)
    (e : BundleEntry) (hk : ∀ q ∈ assets, q.2.fileName ≠ k)
    (hmem : (k, e) ∈ st.bundle) :
    (k, e) ∈ (purgePhase engine opts root standard assets st).bundle := by
  induction assets generalizing st with
  | nil => exact hmem
  | cons q qs ih =>
    simp only [purgePhase, List.foldl_cons] at ih ⊢
    apply ih
    · intro q' hq'
      exact hk q' (List.mem_cons_of_mem _ hq')
    · unfold purgeAssetStep
      cases (engine (mkInvocation opts root standard q.1 q.2.source)).head? with
      | none => exact hmem
      | some res =>
        exact (mem_eraseKey _ _ _ _).2
          ⟨hmem, Ne.symm (hk q (List.mem_cons_self _ _))⟩

/-! ### Claim theorems -/

/-- Claim C1: a discovered candidate token is appended to the merged
standard safelist if and only if it passes both the CSS selector grammar
parse and the regular-expression compilation; a token failing either check
is silently discarded (it simply does not appear), and validation is a
total function — no token aborts the build. The part of the merged
safelist beyond the pre-existing array is exactly the filtered token
list. -/
theorem discovered_token_admitted_iff (p r : String → Bool)
    (std : List SRE) (sels : List String) :
    (buildStandard p r std sels).drop std.length
      = (sels.filter (fun t => p t && r t)).map SRE.str ∧
    ∀ t, (SRE.str t ∈ (buildStandard p r std sels).drop std.length ↔
      (t ∈ sels ∧ p t = true ∧ r t = true)) := by
  have hd : (buildStandard p r std sels).drop std.length
      = (sels.filter (fun t => p t && r t)).map SRE.str := by
    rw [buildStandard_eq, List.drop_left]
  refine ⟨hd, fun t => ?_⟩
  rw [hd]
  simp only [List.mem_map, List.mem_filter, Bool.and_eq_true, SRE.str.injEq]
  constructor
  · rintro ⟨a, ⟨ha, hpa, hra⟩, rfl⟩
    exact ⟨ha, hpa, hra⟩
  · rintro ⟨ha, hpa, hra⟩
    exact ⟨t, ⟨ha, hpa, hra⟩, rfl⟩

/-- Claim C2: for every user configuration (empty safelist and explicit
`standard: []` included) the merged standard safelist is the six baseline
entries first, then the user standard entries, then the validated
discovered selectors appended last; in particular every baseline entry is
present. -/
theorem baseline_safelist_order (opts : Option UserOptions)
    (p r : String → Bool) (sels : List String) :
    buildStandard p r (initialStandard opts) sels
      = baselineStandard ++ userStandard opts
        ++ (sels.filter (fun t => p t && r t)).map SRE.str ∧
    ∀ e ∈ baselineStandard,
      e ∈ buildStandard p r (initialStandard opts) sels := by
  refine ⟨buildStandard_eq p r (initialStandard opts) sels, fun e he => ?_⟩
  rw [buildStandard_eq]
  exact List.mem_append_left _ (List.mem_append_left _ he)

/-- Witness for C2: with a user configuration that explicitly sets
`standard: []`, the catch-all wildcard baseline entry is still in the
merged safelist even when both validation checks reject everything. -/
theorem baseline_safelist_order_witness :
    SRE.str "*" ∈ buildStandard (fun _ => false) (fun _ => false)
      (initialStandard (some ⟨some ⟨some [], none, none, none, none⟩,
        none, none, none, none, none, none⟩)) [] :=
  (baseline_safelist_order
    (some ⟨some ⟨some [], none, none, none, none⟩,
      none, none, none, none, none, none⟩)
    (fun _ => false) (fun _ => false) []).2 (SRE.str "*") (by decide)

/-- Claim C4: every member of the validated selector set (the tokens the
validation loop admits past both checks, i.e. the part of the safelist
array beyond the pre-existing entries) passes both the selector parse and
the pattern compilation, and the collection grows monotonically: feeding
more candidates only ever appends, never removes. -/
theorem selector_set_valid_and_monotone (p r : String → Bool)
    (std : List SRE) (sels extra : List String) :
    (∀ t, SRE.str t ∈ (buildStandard p r std sels).drop std.length →
        p t = true ∧ r t = true) ∧
    ∃ rest, buildStandard p r std (sels ++ extra)
        = buildStandard p r std sels ++ rest := by
  constructor
  · intro t ht
    rw [buildStandard_eq, List.drop_left] at ht
    simp only [List.mem_map, List.mem_filter, SRE.str.injEq] at ht
    obtain ⟨u, ⟨_, hu⟩, hut⟩ := ht
    rw [← hut]
    simpa using hu
  · refine ⟨(extra.filter (fun t => p t && r t)).map SRE.str, ?_⟩
    rw [buildStandard_eq, buildStandard_eq, List.filter_append,
      List.map_append, List.append_assoc]

/-- Witness for C4: a concretely admitted token satisfies both checks. -/
theorem selector_set_valid_and_monotone_witness :
    (fun _ => true : String → Bool) "a" = true ∧
    (fun _ => true : String → Bool) "a" = true :=
  (selector_set_valid_and_monotone (fun _ => true) (fun _ => true)
    [] ["a"] []).1 "a" (by decide)

/-- Claim C8: every purge-engine invocation, for every user option object,
has `css` equal to the single trimmed-and-tagged entry for the asset,
`rejected` and `rejectedCss` forced to `true`, and `content` equal to the
HTML glob under the root followed by the user content globs; moreover
user-supplied `rejected`/`rejectedCss` values do not influence the
invocation at all. -/
theorem purge_invocation_forced_options (opts : Option UserOptions)
    (root : String) (standard : List SRE) (fileName source : String) :
    (mkInvocation opts root standard fileName source).css
      = [⟨source.trim, fileName⟩] ∧
    (mkInvocation opts root standard fileName source).rejected = true ∧
    (mkInvocation opts root standard fileName source).rejectedCss = true ∧
    (mkInvocation opts root standard fileName source).content
      = joinPath root "**/*.html" :: userContent opts ∧
    ∀ (u : UserOptions) (b b' : Option Bool),
      mkInvocation (some { u with rejected := b, rejectedCss := b' })
          root standard fileName source
        = mkInvocation (some u) root standard fileName source :=
  ⟨rfl, rfl, rfl, rfl, fun _ _ _ => rfl⟩

/-- Claim C3: for a CSS asset of the bundle, if the purge engine returns a
result the original asset is removed from the output collection keyed by
its file name and an asset with the same metadata but the purged CSS text
as content is emitted; if the engine returns no result the state is left
unchanged. The `eraseKey` characterisation makes "removed by its file
name" explicit. -/
theorem css_asset_replaced_or_kept
    (engine : PurgeInvocation → List PurgeResult) (opts : Option UserOptions)
    (root : String) (standard : List SRE) (st : GenState)
    (fileName : String) (a : Asset) :
    (∀ res,
      (engine (mkInvocation opts root standard fileName a.source)).head?
          = some res →
        purgeAssetStep engine opts root standard st (fileName, a)
          = { bundle := eraseKey st.bundle a.fileName,
              emitted := st.emitted ++ [{ a with source := res.css }] } ∧
        ∀ k e, ((k, e) ∈ eraseKey st.bundle a.fileName ↔
          ((k, e) ∈ st.bundle ∧ k ≠ a.fileName))) ∧
    ((engine (mkInvocation opts root standard fileName a.source)).head?
        = none →
      purgeAssetStep engine opts root standard st (fileName, a) = st) := by
  constructor
  · intro res hres
    refine ⟨?_, fun k e => mem_eraseKey _ _ _ _⟩
    simp only [purgeAssetStep, hres]
  · intro hres
    simp only [purgeAssetStep, hres]

/-- Witness for C3: a concrete engine result replaces a concrete asset. -/
theorem css_asset_replaced_or_kept_witness :
    purgeAssetStep (fun _ => [⟨"p"⟩]) none "rt" []
        ⟨[("a.css", BundleEntry.asset ⟨"a.css", none, "x"⟩)], []⟩
        ("a.css", ⟨"a.css", none, "x"⟩)
      = { bundle := eraseKey
            [("a.css", BundleEntry.asset ⟨"a.css", none, "x"⟩)] "a.css",
          emitted := [⟨"a.css", none, "p"⟩] } ∧
    ∀ k e, ((k, e) ∈ eraseKey
        [("a.css", BundleEntry.asset ⟨"a.css", none, "x"⟩)] "a.css" ↔
      ((k, e) ∈ [("a.css", BundleEntry.asset ⟨"a.css", none, "x"⟩)] ∧
        k ≠ "a.css")) :=
  (css_asset_replaced_or_kept (fun _ => [⟨"p"⟩]) none "rt" []
    ⟨[("a.css", BundleEntry.asset ⟨"a.css", none, "x"⟩)], []⟩
    "a.css" ⟨"a.css", none, "x"⟩).1 ⟨"p"⟩ rfl

/-- Claim C5: a tracked module whose info is missing, whose inclusion
status is not exactly `true`, or whose code is unavailable contributes
nothing: the scan over a module list containing it equals the scan over
the list without it, and so does the merged safelist built from the
result. -/
theorem excluded_module_no_contribution
    (getInfo : String → Option ModuleInfo) (parseAst : String → ESNode)
    (ext : String → List String) (p r : String → Bool) (std : List SRE)
    (sel0 : List String) (pre post : List String) (id : String)
    (h : moduleScanned getInfo id = false) :
    scanModules getInfo parseAst ext sel0 (pre ++ id :: post)
      = scanModules getInfo parseAst ext sel0 (pre ++ post) ∧
    buildStandard p r std
        (scanModules getInfo parseAst ext sel0 (pre ++ id :: post))
      = buildStandard p r std
        (scanModules getInfo parseAst ext sel0 (pre ++ post)) := by
  have hs : scanModules getInfo parseAst ext sel0 (pre ++ id :: post)
      = scanModules getInfo parseAst ext sel0 (pre ++ post) := by
    unfold scanModules
    rw [List.foldl_append, List.foldl_append, List.foldl_cons,
      scanModule_not_scanned getInfo parseAst ext _ id h]
  exact ⟨hs, by rw [hs]⟩

/-- Witness for C5: a module reported with `isIncluded: false` adds no
token to the scan of a concrete module list. -/
theorem excluded_module_no_contribution_witness :
    scanModules
        (fun i => if i = "dead" then some ⟨some false, some "zap"⟩
          else some ⟨some true, some "live"⟩)
        (fun c => ESNode.literal (LitValue.str c) []) (fun s => [s])
        [] (["m1"] ++ "dead" :: [])
      = scanModules
        (fun i => if i = "dead" then some ⟨some false, some "zap"⟩
          else some ⟨some true, some "live"⟩)
        (fun c => ESNode.literal (LitValue.str c) []) (fun s => [s])
        [] (["m1"] ++ []) :=
  (excluded_module_no_contribution
    (fun i => if i = "dead" then some ⟨some false, some "zap"⟩
      else some ⟨some true, some "live"⟩)
    (fun c => ESNode.literal (LitValue.str c) []) (fun s => [s])
    (fun _ => true) (fun _ => true) [] [] ["m1"] [] "dead" (by decide)).1

/-- Claim C6: a bundle entry that is not a CSS asset (a chunk, or an asset
whose file name does not match the extension predicate) is never among the
classified assets handed to the purge engine, and survives the whole purge
phase byte-for-byte (the exact key/entry pair is still in the bundle). -/
theorem non_css_entry_untouched
    (engine : PurgeInvocation → List PurgeResult) (opts : Option UserOptions)
    (root : String) (standard : List SRE) (bundle : Bundle)
    (k : String) (e : BundleEntry)
    (hw : wellKeyed bundle = true)
    (hnd : (bundle.map Prod.fst).Nodup)
    (hmem : (k, e) ∈ bundle)
    (hcss : isCssEntry k e = false) :
    (∀ q ∈ classifyAssets bundle, q.1 ≠ k ∧ q.2.fileName ≠ k) ∧
    (k, e) ∈ (purgePhase engine opts root standard
        (classifyAssets bundle) ⟨bundle, []⟩).bundle := by
  have hq : ∀ q ∈ classifyAssets bundle, q.1 ≠ k ∧ q.2.fileName ≠ k := by
    intro q hqmem
    obtain ⟨hbm, hext⟩ := (mem_classifyAssets bundle q).1 hqmem
    have hfn : q.2.fileName = q.1 := by
      have hall := (List.all_eq_true.1 hw) _ hbm
      simpa using hall
    have hne : q.1 ≠ k := by
      intro hkeq
      rw [hkeq] at hbm hext
      have heq := keyed_entry_unique bundle hnd k
        (BundleEntry.asset q.2) e hbm hmem
      rw [← heq] at hcss
      simp only [isCssEntry] at hcss
      rw [hcss] at hext
      cases hext
    exact ⟨hne, hfn ▸ hne⟩
  refine ⟨hq, purgePhase_preserves_other_keys engine opts root standard
    (classifyAssets bundle) ⟨bundle, []⟩ k e ?_ hmem⟩
  intro q hqmem
  exact (hq q hqmem).2

/-- Witness for C6: a JavaScript chunk in a concrete bundle is untouched by
the purge phase. -/
theorem non_css_entry_untouched_witness :
    ("app.js", BundleEntry.chunk "code") ∈
      (purgePhase (fun _ => [⟨""⟩]) none "rt" []
        (classifyAssets
          [("app.js", BundleEntry.chunk "code"),
           ("s.css", BundleEntry.asset ⟨"s.css", none, "b"⟩)])
        ⟨[("app.js", BundleEntry.chunk "code"),
          ("s.css", BundleEntry.asset ⟨"s.css", none, "b"⟩)], []⟩).bundle :=
  (non_css_entry_untouched (fun _ => [⟨""⟩]) none "rt" []
    [("app.js", BundleEntry.chunk "code"),
     ("s.css", BundleEntry.asset ⟨"s.css", none, "b"⟩)]
    "app.js" (BundleEntry.chunk "code")
    (by decide) (by decide) (by decide) (by decide)).2

/-- Claim C7: the tree walk matches the spec's description of it — every
node contributes exactly the text `specNodeText` assigns it (string
literals their value, identifiers their name, template elements the cooked
value with raw fallback, all other categories nothing) followed by its
children's contributions; the cooked/raw fallback is stated explicitly;
and every token the extractor returns is added to the candidate set. -/
theorem walk_extracts_three_categories (ext : String → List String) :
    (∀ n : ESNode, walkExtract ext n
        = ((specNodeText n).map ext).getD [] ++ walkExtractList ext n.kids) ∧
    (∀ cooked raw kids,
      walkExtract ext (ESNode.templateElement (some cooked) raw kids)
        = ext cooked ++ walkExtractList ext kids) ∧
    (∀ raw kids, walkExtract ext (ESNode.templateElement none raw kids)
        = ext raw ++ walkExtractList ext kids) ∧
    (∀ sel toks s, s ∈ addAll sel toks ↔ (s ∈ sel ∨ s ∈ toks)) := by
  refine ⟨fun n => ?_, fun cooked raw kids => rfl, fun raw kids => rfl,
    fun sel toks s => mem_addAll sel toks s⟩
  cases n with
  | literal v kids =>
    cases v <;> simp [walkExtract, specNodeText, ESNode.kids]
  | ident nm kids => simp [walkExtract, specNodeText, ESNode.kids]
  | templateElement cooked raw kids =>
    simp [walkExtract, specNodeText, ESNode.kids]
  | other kids => simp [walkExtract, specNodeText, ESNode.kids]

/-- Claim C9: user-supplied safelist entries reach the purge engine
verbatim, with the token validation never applied to them — for arbitrary
(even everywhere-failing) parse and regex predicates, every user standard
entry is in the invocation's standard safelist, every user greedy entry is
in its greedy safelist after the baseline entry, and the `deep`,
`keyframes` and `variables` partitions pass through unchanged. -/
theorem user_safelist_unvalidated (u : UserOptions) (p r : String → Bool)
    (sels : List String) (root fileName source : String) (e : SRE)
    (he : e ∈ userStandard (some u)) :
    e ∈ (mkInvocation (some u) root
        (buildStandard p r (initialStandard (some u)) sels)
        fileName source).safelist.standard ∧
    (∀ g ∈ userGreedy (some u),
      g ∈ (mkInvocation (some u) root
        (buildStandard p r (initialStandard (some u)) sels)
        fileName source).safelist.greedy) ∧
    (mkInvocation (some u) root
        (buildStandard p r (initialStandard (some u)) sels)
        fileName source).safelist.deep = u.safelist.bind (·.deep) ∧
    (mkInvocation (some u) root
        (buildStandard p r (initialStandard (some u)) sels)
        fileName source).safelist.keyframes
      = u.safelist.bind (·.keyframes) ∧
    (mkInvocation (some u) root
        (buildStandard p r (initialStandard (some u)) sels)
        fileName source).safelist.variablesFlag
      = u.safelist.bind (·.variablesFlag) := by
  refine ⟨?_, fun g hg => List.mem_cons_of_mem _ hg, rfl, rfl, rfl⟩
  show e ∈ buildStandard p r (initialStandard (some u)) sels
  rw [buildStandard_eq]
  exact List.mem_append_left _ (List.mem_append_right _ he)

/-- Witness for C9: a user standard entry that is not a valid selector
(both validation predicates reject everything) still reaches the engine's
safelist. -/
theorem user_safelist_unvalidated_witness :
    SRE.str "(((" ∈ (mkInvocation
        (some ⟨some ⟨some [SRE.str "((("], none, some [SRE.regex "g-"],
          none, none⟩, none, none, none, none, none, none⟩)
        "rt"
        (buildStandard (fun _ => false) (fun _ => false)
          (initialStandard (some ⟨some ⟨some [SRE.str "((("], none,
            some [SRE.regex "g-"], none, none⟩,
            none, none, none, none, none, none⟩)) [])
        "f.css" "src").safelist.standard :=
  (user_safelist_unvalidated
    ⟨some ⟨some [SRE.str "((("], none, some [SRE.regex "g-"], none, none⟩,
      none, none, none, none, none, none⟩
    (fun _ => false) (fun _ => false) [] "rt" "f.css" "src"
    (SRE.str "(((") (by decide)).1

/-- Claim C10: the selector set and the standard array live in the plugin
closure and persist across `generateBundle` invocations; a second run over
the same modules re-appends every validated discovered selector, so after
two runs the standard safelist counts each such selector at least
twice. -/
theorem second_run_duplicates_selectors
    (getInfo : String → Option ModuleInfo) (parseAst : String → ESNode)
    (ext : String → List String) (p r : String → Bool)
    (engine : PurgeInvocation → List PurgeResult)
    (opts : Option UserOptions) (root : String)
    (moduleIds : List String) (bundle : Bundle) (s : String)
    (hmem : s ∈ ((runGenerateBundle getInfo parseAst ext p r engine opts
        root moduleIds bundle (initialState opts)).1).selectors)
    (hp : p s = true) (hr : r s = true) :
    2 ≤ (((runGenerateBundle getInfo parseAst ext p r engine opts root
        moduleIds bundle
        ((runGenerateBundle getInfo parseAst ext p r engine opts root
          moduleIds bundle (initialState opts)).1)).1).standard).count
        (SRE.str s) := by
  have hmem1 : s ∈ scanModules getInfo parseAst ext [] moduleIds := hmem
  have hmem2 : s ∈ scanModules getInfo parseAst ext
      (scanModules getInfo parseAst ext [] moduleIds) moduleIds :=
    mem_scanModules_of_mem _ _ _ _ _ _ hmem1
  have hcnt : ∀ l : List String, s ∈ l →
      1 ≤ ((l.filter (fun t => p t && r t)).map SRE.str).count
        (SRE.str s) := by
    intro l hl
    exact List.count_pos_iff.2
      (List.mem_map_of_mem _ (List.mem_filter.2 ⟨hl, by simp [hp, hr]⟩))
  show 2 ≤ (buildStandard p r
      (buildStandard p r (initialStandard opts)
        (scanModules getInfo parseAst ext [] moduleIds))
      (scanModules getInfo parseAst ext
        (scanModules getInfo parseAst ext [] moduleIds) moduleIds)).count
      (SRE.str s)
  rw [buildStandard_eq, buildStandard_eq, List.count_append,
    List.count_append]
  have h1 := hcnt _ hmem1
  have h2 := hcnt _ hmem2
  omega

/-- Witness for C10: two runs over a one-module build whose only token is
`foo` put `foo` into the standard safelist twice. -/
theorem second_run_duplicates_selectors_witness :
    2 ≤ (((runGenerateBundle
        (fun _ => some ⟨some true, some "code"⟩)
        (fun _ => ESNode.literal (LitValue.str "foo") [])
        (fun t => [t]) (fun _ => true) (fun _ => true) (fun _ => [])
        none "rt" ["m"] []
        ((runGenerateBundle (fun _ => some ⟨some true, some "code"⟩)
          (fun _ => ESNode.literal (LitValue.str "foo") [])
          (fun t => [t]) (fun _ => true) (fun _ => true) (fun _ => [])
          none "rt" ["m"] [] (initialState none)).1)).1).standard).count
        (SRE.str "foo") :=
  second_run_duplicates_selectors
    (fun _ => some ⟨some true, some "code"⟩)
    (fun _ => ESNode.literal (LitValue.str "foo") [])
    (fun t => [t]) (fun _ => true) (fun _ => true) (fun _ => [])
    none "rt" ["m"] [] "foo" (by decide) rfl rfl

end PurgeCssPlugin
